import Mathlib

/-!
# finsync: `TransactionList` component

A shallow embedding of `src/components/TransactionList.jsx`.

* The IndexedDB object store `transactions` is a list of records (the order
  in which `getAll` returns them).
* The React state of the component is a structure; every event handler is a
  function on (store, state) that already includes the effects React runs
  after the handler (`useEffect` with its dependency array).
* A record keeps its date as the stored text and its amount as a JavaScript
  number.  What the engine makes of a date text (`Date.parse`, the local
  zone, the en-IN date text) is a `Runtime`; an `Invalid Date` and `NaN` are
  `none`.
-/

namespace Finsync

/-! ## Data model -/

/-- A record key: IndexedDB keys are numbers or strings (the empty form has
the id `''`). -/
inductive Key where
  | num (n : Nat)
  | str (s : String)
  deriving DecidableEq, Repr

/-- A JavaScript number.  A finite number is kept as a decimal
`± digits × 10 ^ exponent` (every double has such an expansion; its shortest
round-trip digits are the ones Number-to-string prints). -/
inductive JsNumber where
  | nan
  | infinity (negative : Bool)
  | finite (negative : Bool) (digits : Nat) (exponent : Int)
  deriving DecidableEq, Repr

/-- The number of a non-negative integer literal. -/
def JsNumber.ofNat (n : Nat) : JsNumber := JsNumber.finite false n 0

/-- One transaction record: identifier, name, type, category, date, amount.
`date` is the stored text (the date input gives `YYYY-MM-DD`, or `''` when
cleared). -/
structure Record where
  id : Key
  name : String
  type : String
  category : String
  date : String
  amount : JsNumber
  deriving DecidableEq, Repr

/-- The object store `transactions`, in the order `getAll` returns it. -/
abbrev Store := List Record

/-- User-visible notifications (`toast.success`, `toast.error`, `toast.info`). -/
inductive Toast where
  | success (msg : String)
  | error (msg : String)
  | info (msg : String)
  deriving DecidableEq, Repr

/-- The `useState` cells of the component.  `filteredIsTransactions` records
whether `filtered` and `transactions` hold the very same array object
(`filtered === transactions`): React compares state and effect dependencies
with `Object.is`, and an array produced by `getAll` or by `filter` is always
a new object.  The picked dates are `Date` objects, kept as their time value
(`none` for `null`). -/
structure State where
  transactions : List Record
  filtered : List Record
  filteredIsTransactions : Bool
  startDate : Option Int
  endDate : Option Int
  editId : Option Key
  currentPage : Int
  editForm : Record
  toasts : List Toast
  deriving DecidableEq, Repr

/-- Page size: `const itemsPerPage = 10`. -/
def itemsPerPage : Nat := 10

/-- Milliseconds in a day. -/
def msPerDay : Int := 86400000

/-- Initial value of `editForm`. -/
def emptyForm : Record :=
  { id := Key.str "", name := "", type := "expense", category := "", date := "",
    amount := JsNumber.ofNat 0 }

/-- State right after the `useState` initialisers: two distinct empty arrays,
no dates, page 1. -/
def initialState : State :=
  { transactions := [], filtered := [], filteredIsTransactions := false,
    startDate := none, endDate := none, editId := none, currentPage := 1,
    editForm := emptyForm, toasts := [] }

/-! ## The JavaScript runtime -/

/-- What the engine contributes: the local zone as a fixed offset `tz` in
milliseconds ahead of UTC, `Date.parse` on a text (`none` for `NaN`), and the
text `toLocaleDateString('en-IN')` gives for a valid time value. -/
structure Runtime where
  tz : Int
  dateParse : String → Option Int
  formatDate : Int → String

/-- The time value of `new Date(txn.date)`; `none` is an `Invalid Date`. -/
def dateOf (rt : Runtime) (r : Record) : Option Int := rt.dateParse r.date

/-- `d.setHours(h, m, s, ms)` on the instant `t`, in a zone `tz` milliseconds
ahead of UTC: same local calendar day, given local time of day. -/
def setHours (tz : Int) (t : Int) (h m s ms : Int) : Int :=
  ((t + tz) / msPerDay) * msPerDay + (h * 3600000 + m * 60000 + s * 1000 + ms) - tz

/-- The local calendar day (day number) of the instant `t`. -/
def localDay (tz : Int) (t : Int) : Int := (t + tz) / msPerDay

/-- `Array.prototype.sort(cmp)`: a stable sort; a comparator result `NaN`
(`none`) counts as 0, and `a` stays before `b` when the result is at most 0.
For a comparator that is no consistent order the engine may place elements
otherwise; this is the order a stable insertion gives. -/
def jsSort {α : Type} (cmp : α → α → Option Int) (l : List α) : List α :=
  l.insertionSort (fun a b => (cmp a b).getD 0 ≤ 0)

/-- The subtraction `new Date(y) - new Date(x)`: `NaN` when either date is
invalid. -/
def dateDiff (y x : Option Int) : Option Int :=
  match y, x with
  | some ty, some tx => some (ty - tx)
  | _, _ => none

/-- The comparison `a >= b` of two dates: false when either is invalid. -/
def dateGe (a b : Option Int) : Bool :=
  match a, b with
  | some ta, some tb => decide (ta ≥ tb)
  | _, _ => false

/-- The comparison `a <= b` of two dates: false when either is invalid. -/
def dateLe (a b : Option Int) : Bool :=
  match a, b with
  | some ta, some tb => decide (ta ≤ tb)
  | _, _ => false

/-- `Array.prototype.join(sep)` on strings. -/
def join (sep : String) : List String → String
  | [] => ""
  | [x] => x
  | x :: y :: rest => x ++ sep ++ join sep (y :: rest)

/-- `Array.prototype.slice(from, to)`: a negative index counts from the end,
both indices are clamped to the array. -/
def slice {α : Type} (l : List α) (lo hi : Int) : List α :=
  let len : Int := l.length
  let k := if lo < 0 then max (len + lo) 0 else min lo len
  let fin := if hi < 0 then max (len + hi) 0 else min hi len
  (l.drop k.toNat).take (fin - k).toNat

/-- The decimal digits of a natural number. -/
def digitsOf (m : Nat) : List Char := (toString m).data

/-- Drop the zeros at the end of a digit list. -/
def stripZeros (ds : List Char) : List Char :=
  (ds.reverse.dropWhile (fun c => c == '0')).reverse

/-- Number-to-string (ECMAScript `Number::toString`, radix 10): with `s` the
`k` significant digits and `n` the position of the decimal point, plain
digits for `k <= n <= 21`, a decimal point inside for `0 < n <= 21`, leading
`0.` for `-6 < n <= 0`, exponent form otherwise. -/
def numberToString : JsNumber → String
  | .nan => "NaN"
  | .infinity negative => String.mk ((if negative then ['-'] else []) ++ "Infinity".data)
  | .finite negative m e =>
    if m = 0 then "0" else
    let s := stripZeros (digitsOf m)
    let k : Int := s.length
    let n : Int := (digitsOf m).length + e
    let expo := (if n - 1 < 0 then ['-'] else ['+']) ++ digitsOf (n - 1).natAbs
    let body :=
      if k ≤ n ∧ n ≤ 21 then s ++ List.replicate (n - k).toNat '0'
      else if 0 < n ∧ n ≤ 21 then s.take n.toNat ++ ['.'] ++ s.drop n.toNat
      else if -6 < n ∧ n ≤ 0 then ['0', '.'] ++ List.replicate (-n).toNat '0' ++ s
      else if k = 1 then s ++ ['e'] ++ expo
      else s.take 1 ++ ['.'] ++ s.drop 1 ++ ['e'] ++ expo
    String.mk ((if negative then ['-'] else []) ++ body)

/-- The operand of `x || 0`: `NaN` and zero are falsy. -/
def orZero : JsNumber → JsNumber
  | .nan => JsNumber.ofNat 0
  | .finite negative m e => if m = 0 then JsNumber.ofNat 0 else .finite negative m e
  | x => x

/-- `new Date(text).toLocaleDateString('en-IN')`. -/
def toLocaleDateString (rt : Runtime) (text : String) : String :=
  match rt.dateParse text with
  | some t => rt.formatDate t
  | none => "Invalid Date"

/-- The line feed character. -/
def LF : Char := Char.ofNat 10

/-- Lines of a text: the pieces between line feeds. -/
def lines (s : String) : List String :=
  (s.data.splitOn LF).map String.mk

/-! ## Component code -/

/-- The effect `useEffect(() => setCurrentPage(1), [filtered])` together with
`setFiltered(v)`: the page is reset when `filtered` becomes another object.
`same` tells whether `v` is the `transactions` array itself. -/
def setFiltered (v : List Record) (same : Bool) (st : State) : State :=
  if same && st.filteredIsTransactions then
    { st with filtered := v, filteredIsTransactions := true }
  else
    { st with filtered := v, filteredIsTransactions := same, currentPage := 1 }

/-- `fetchTransactions`: `getAll`, sort with the comparator
`new Date(b.date) - new Date(a.date)`, publish as both `transactions` and
`filtered` (one new array), then the page-reset effect. -/
def fetchTransactions (rt : Runtime) (store : Store) (st : State) : State :=
  let sorted := jsSort (fun a b => dateDiff (dateOf rt b) (dateOf rt a)) store
  { st with transactions := sorted, filtered := sorted,
            filteredIsTransactions := true, currentPage := 1 }

/-- `applyFilter`, with the page-reset effect that follows `setFiltered`. -/
def applyFilter (rt : Runtime) (st : State) : State :=
  match st.startDate, st.endDate with
  | some s, some e =>
    let start := setHours rt.tz s 0 0 0 0
    let stop := setHours rt.tz e 23 59 59 999
    let filteredTxns := st.transactions.filter
      (fun txn => dateGe (dateOf rt txn) (some start) && dateLe (dateOf rt txn) (some stop))
    setFiltered filteredTxns false st
  | _, _ => setFiltered st.transactions true st

/-- `totalPages = Math.ceil(filtered.length / itemsPerPage)`. -/
def totalPages (st : State) : Int :=
  Int.ceil ((st.filtered.length : ℚ) / (itemsPerPage : ℚ))

/-- The displayed page:
`filtered.slice((currentPage - 1) * itemsPerPage, currentPage * itemsPerPage)`. -/
def paginated (st : State) : List Record :=
  slice st.filtered ((st.currentPage - 1) * itemsPerPage) (st.currentPage * itemsPerPage)

/-- One CSV row of `handleExportCSV`, before `join`. -/
def csvRow (rt : Runtime) (txn : Record) : List String :=
  [txn.name, txn.type, txn.category, toLocaleDateString rt txn.date,
    numberToString txn.amount]

/-- The header row of `handleExportCSV`. -/
def csvHeader : List String := ["Name", "Type", "Category", "Date", "Amount"]

/-- `handleExportCSV`: the text handed to `saveAs` (none when nothing is
exported) and the state with the notification.  The file name, taken from
the current date, is left out. -/
def handleExportCSV (rt : Runtime) (st : State) : Option String × State :=
  let dataToExport := st.filtered
  if dataToExport.length = 0 then
    (none, { st with toasts := st.toasts ++ [Toast.info "No transactions to export"] })
  else
    let rows := csvHeader :: dataToExport.map (csvRow rt)
    let csvContent := join "\n" (rows.map (join ","))
    (some csvContent, st)

/-! ## The store -/

/-- Modelled from the spec: the object store of `utils/db` keyed by the record
identifier; `put` replaces the record with the same identifier and adds the
record when the identifier is new ("update-by-id replaces the full record"). -/
def put (r : Record) (store : Store) : Store :=
  if store.any (fun x => decide (x.id = r.id)) then
    store.map (fun x => if x.id = r.id then r else x)
  else store ++ [r]

/-- Modelled from the spec: `deleteTransaction(id)` of `utils/db`,
`deleteByKey(handle, "transactions", id)`: removes the record with that
identifier and no other. -/
def deleteTransaction (id : Key) (store : Store) : Store :=
  store.filter (fun x => decide (x.id ≠ id))

/-! ## Event handlers -/

/-- The awaited or throwing steps inside the `try` block of `handleUpdate`. -/
inductive FailPoint where
  | initDB
  | transaction
  | put
  | txDone
  | fetchInitDB
  | fetchGetAll
  deriving DecidableEq, Repr

/-- The steps of the store write: they come before `setEditId(null)`. -/
def FailPoint.isWrite : FailPoint → Bool
  | .initDB | .transaction | .put | .txDone => true
  | .fetchInitDB | .fetchGetAll => false

/-- `handleUpdate`; `fail` names the step that throws, if any.  A write that
throws leaves the store as it was (the IndexedDB transaction aborts). -/
def handleUpdate (rt : Runtime) (fail : Option FailPoint) (w : Store × State) :
    Store × State :=
  let (store, st) := w
  let failed (s : State) : State :=
    { s with toasts := s.toasts ++ [Toast.error "Failed to update transaction"] }
  match fail with
  | some .initDB | some .transaction | some .put | some .txDone => (store, failed st)
  | some .fetchInitDB | some .fetchGetAll =>
    (put st.editForm store, failed { st with editId := none })
  | none =>
    let store1 := put st.editForm store
    let st1 := fetchTransactions rt store1 { st with editId := none }
    (store1, { st1 with toasts := st1.toasts ++ [Toast.success "Transaction updated successfully"] })

/-- The `onChange` handlers of the edit form: `v` is `e.target.value` (for
the date input `YYYY-MM-DD`, or `''` when cleared); for the amount the event
carries what `parseFloat(e.target.value)` returned. -/
inductive FormChange where
  | name (v : String)
  | type (v : String)
  | category (v : String)
  | date (v : String)
  | amount (parsed : JsNumber)
  deriving DecidableEq, Repr

/-- `setEditForm({ ...editForm, field: value })`; the amount is
`parseFloat(e.target.value) || 0`. -/
def changeForm (c : FormChange) (st : State) : State :=
  match c with
  | .name v => { st with editForm := { st.editForm with name := v } }
  | .type v => { st with editForm := { st.editForm with type := v } }
  | .category v => { st with editForm := { st.editForm with category := v } }
  | .date v => { st with editForm := { st.editForm with date := v } }
  | .amount p => { st with editForm := { st.editForm with amount := orZero p } }

/-- The edit button of a row: `setEditId(txn.id); setEditForm({ ...txn })`. -/
def startEdit (txn : Record) (st : State) : State :=
  { st with editId := some txn.id, editForm := txn }

/-- The cancel button: `setEditId(null)`. -/
def cancelEdit (st : State) : State := { st with editId := none }

/-- `setStartDate(date)` from the picker, with the effect on
`[startDate, endDate]`: a date object is always a new value, `null` over
`null` is no change. -/
def setStartDate (rt : Runtime) (d : Option Int) (st : State) : State :=
  if d = none ∧ st.startDate = none then st
  else applyFilter rt { st with startDate := d }

/-- `setEndDate(date)` from the picker, with the effect on `[startDate, endDate]`. -/
def setEndDate (rt : Runtime) (d : Option Int) (st : State) : State :=
  if d = none ∧ st.endDate = none then st
  else applyFilter rt { st with endDate := d }

/-- The "Yes" button of the delete confirmation:
`deleteTransaction(txn.id)`, `fetchTransactions()`, success notification. -/
def confirmDelete (rt : Runtime) (id : Key) (w : Store × State) : Store × State :=
  let store1 := deleteTransaction id w.1
  let st1 := fetchTransactions rt store1 w.2
  (store1, { st1 with toasts := st1.toasts ++ [Toast.success "Transaction deleted successfully"] })

/-- The "No" button of the delete confirmation. -/
def declineDelete (st : State) : State :=
  { st with toasts := st.toasts ++ [Toast.info "Deletion cancelled"] }

/-- The pagination block is rendered only when `filtered` is not empty. -/
def pagerShown (st : State) : Bool := !st.filtered.isEmpty

/-- "Previous" can be pressed: rendered and not `disabled={currentPage === 1}`. -/
def prevEnabled (st : State) : Bool := pagerShown st && decide (st.currentPage ≠ 1)

/-- "Next" can be pressed: rendered and not `disabled={currentPage === totalPages}`. -/
def nextEnabled (st : State) : Bool :=
  pagerShown st && decide (st.currentPage ≠ totalPages st)

/-- "Previous": `setCurrentPage((prev) => prev - 1)`. -/
def prevPage (st : State) : State := { st with currentPage := st.currentPage - 1 }

/-- "Next": `setCurrentPage((prev) => prev + 1)`. -/
def nextPage (st : State) : State := { st with currentPage := st.currentPage + 1 }

/-- State after the first render and its effects, before the load resolves:
the page effect, then `applyFilter` (no dates yet). -/
def mount (rt : Runtime) : State := applyFilter rt initialState

/-- The operations of the component. -/
inductive Op where
  | load
  | setStart (d : Option Int)
  | setEnd (d : Option Int)
  | prev
  | next
  | edit (txn : Record)
  | change (c : FormChange)
  | cancel
  | save
  | delete (id : Key)
  deriving DecidableEq, Repr

/-- Whether the operation is offered by the rendered page; only the pager
buttons are constrained. -/
def Op.allowed (st : State) : Op → Bool
  | .prev => prevEnabled st
  | .next => nextEnabled st
  | _ => true

/-- One operation, run to the end with its effects. -/
def step (rt : Runtime) (w : Store × State) : Op → Store × State
  | .load => (w.1, fetchTransactions rt w.1 w.2)
  | .setStart d => (w.1, setStartDate rt d w.2)
  | .setEnd d => (w.1, setEndDate rt d w.2)
  | .prev => (w.1, prevPage w.2)
  | .next => (w.1, nextPage w.2)
  | .edit txn => (w.1, startEdit txn w.2)
  | .change c => (w.1, changeForm c w.2)
  | .cancel => (w.1, cancelEdit w.2)
  | .save => handleUpdate rt none w
  | .delete id => confirmDelete rt id w

/-- Run a sequence of operations. -/
def run (rt : Runtime) (w : Store × State) (ops : List Op) : Store × State :=
  ops.foldl (step rt) w

/-- States reachable from the mounted component over the store `store0`,
the pager buttons being pressed only while enabled. -/
inductive Reachable (rt : Runtime) (store0 : Store) : Store × State → Prop where
  | start : Reachable rt store0 (store0, mount rt)
  | next (w : Store × State) (op : Op) :
      Reachable rt store0 w → op.allowed w.2 = true → Reachable rt store0 (step rt w op)

/-- What holds of the page state in every reachable state: an array shared
with `transactions` has its contents, a missing date means the shared array
is shown, and the page lies between 1 and the last page. -/
def PageInv (st : State) : Prop :=
  (st.filteredIsTransactions = true → st.filtered = st.transactions) ∧
  ((st.startDate = none ∨ st.endDate = none) → st.filteredIsTransactions = true) ∧
  1 ≤ st.currentPage ∧ st.currentPage ≤ max 1 (totalPages st)

/-- An editing session: the edit button on `row`, then the form changes in
order. -/
def editSession (row : Record) (changes : List FormChange) (st : State) : State :=
  changes.foldl (fun s c => changeForm c s) (startEdit row st)

/-! ## A sample runtime and sample data -/

/-- Calendar date (year, month, day) of a day number, proleptic Gregorian. -/
def civilFromDays (days : Int) : Int × Int × Int :=
  let z := days + 719468
  let era := z / 146097
  let doe := z - era * 146097
  let yoe := (doe - doe / 1460 + doe / 36524 - doe / 146096) / 365
  let doy := doe - (365 * yoe + yoe / 4 - yoe / 100)
  let mp := (5 * doy + 2) / 153
  let d := doy - (153 * mp + 2) / 5 + 1
  let m := if mp < 10 then mp + 3 else mp - 9
  let y := yoe + era * 400 + (if m ≤ 2 then 1 else 0)
  (y, m, d)

/-- Day number of a calendar date. -/
def daysFromCivil (y m d : Int) : Int :=
  let y1 := if m ≤ 2 then y - 1 else y
  let era := y1 / 400
  let yoe := y1 - era * 400
  let mp := if m > 2 then m - 3 else m + 9
  let doy := (153 * mp + 2) / 5 + d - 1
  let doe := yoe * 365 + yoe / 4 - yoe / 100 + doy
  era * 146097 + doe - 719468

/-- Value of a decimal digit character. -/
def digitValue (c : Char) : Option Nat :=
  if 48 ≤ c.toNat ∧ c.toNat ≤ 57 then some (c.toNat - 48) else none

/-- Days of a month of the Gregorian calendar. -/
def daysInMonth (y m : Nat) : Nat :=
  if m = 2 then (if (y % 4 = 0 ∧ y % 100 ≠ 0) ∨ y % 400 = 0 then 29 else 28)
  else if m = 4 ∨ m = 6 ∨ m = 9 ∨ m = 11 then 30 else 31

/-- Sample `Date.parse`, for the two kinds of text the date input produces:
the date-only form `YYYY-MM-DD` of a calendar day is UTC midnight of that
day, the empty text is no date.  Date-time and other forms, which an engine
may accept, do not occur in the sample data and are given no date here. -/
def parseDateOnly (text : String) : Option Int :=
  match text.data with
  | [y1, y2, y3, y4, '-', m1, m2, '-', d1, d2] =>
    match digitValue y1, digitValue y2, digitValue y3, digitValue y4,
          digitValue m1, digitValue m2, digitValue d1, digitValue d2 with
    | some a, some b, some c, some d, some e, some f, some g, some h =>
      let y := 1000 * a + 100 * b + 10 * c + d
      let m := 10 * e + f
      let day := 10 * g + h
      if 1 ≤ m ∧ m ≤ 12 ∧ 1 ≤ day ∧ day ≤ daysInMonth y m then
        some (daysFromCivil y m day * msPerDay)
      else none
    | _, _, _, _, _, _, _, _ => none
  | _ => none

/-- Sample en-IN date text of a time value in a zone `tz` milliseconds ahead
of UTC: local day, month and year of the era, as in `5/1/2024`. -/
def enINDate (tz : Int) (t : Int) : String :=
  match civilFromDays (localDay tz t) with
  | (y, m, d) =>
    toString d ++ "/" ++ toString m ++ "/" ++ toString (if y ≤ 0 then 1 - y else y)

/-- The sample runtime of a zone `tz` milliseconds ahead of UTC. -/
def sampleRuntime (tz : Int) : Runtime :=
  { tz := tz, dateParse := parseDateOnly, formatDate := enINDate tz }

/-- The zone UTC. -/
def utc : Runtime := sampleRuntime 0

/-- The zone UTC-05:00. -/
def utcMinus5 : Runtime := sampleRuntime (-18000000)

/-- The zone UTC+05:30. -/
def utcPlus530 : Runtime := sampleRuntime 19800000

/-- The instant of local midnight of a calendar date in the zone of `rt`:
what the date picker hands over for that day. -/
def pick (rt : Runtime) (y m d : Int) : Int := daysFromCivil y m d * msPerDay - rt.tz

/-- Sample record `{id: 1, date: 2024-01-05, amount: 100}`. -/
def txn1 : Record :=
  { id := Key.num 1, name := "Rent", type := "expense", category := "Home",
    date := "2024-01-05", amount := JsNumber.ofNat 100 }

/-- Sample record `{id: 2, date: 2024-01-10, amount: 50}`. -/
def txn2 : Record :=
  { id := Key.num 2, name := "Tea", type := "expense", category := "Food",
    date := "2024-01-10", amount := JsNumber.ofNat 50 }

/-- Sample record dated 2024-01-06. -/
def txn3 : Record :=
  { id := Key.num 3, name := "Bus", type := "expense", category := "Travel",
    date := "2024-01-06", amount := JsNumber.ofNat 20 }

/-- Sample record dated 2024-02-01, amount 12.5. -/
def txn4 : Record :=
  { id := Key.num 4, name := "Pay", type := "income", category := "Salary",
    date := "2024-02-01", amount := JsNumber.finite false 125 (-1) }

/-- Sample record whose name holds a line feed. -/
def txnTwoLines : Record :=
  { id := Key.num 5, name := "Gift\nfor Asha", type := "expense", category := "Other",
    date := "2024-01-07", amount := JsNumber.ofNat 30 }

/-- Sample record with amount 1e21 and a cleared date. -/
def txnNoDate : Record :=
  { id := Key.num 6, name := "Loan", type := "income", category := "Other",
    date := "", amount := JsNumber.finite false 1 21 }

/-- Eleven records, dated 2024-01-01 to 2024-01-11: two pages. -/
def elevenTxns : List Record :=
  (List.range 11).map (fun i =>
    { id := Key.num i, name := "Item", type := "expense", category := "Misc",
      date := "2024-01-" ++ (if i + 1 < 10 then "0" else "") ++ toString (i + 1),
      amount := JsNumber.ofNat 10 })

/-- The loaded component with both dates picked. -/
def loadedWithRange (rt : Runtime) (store : Store) (s e : Int) : State :=
  { fetchTransactions rt store (mount rt) with startDate := some s, endDate := some e }

/-! ## Loading and sorting -/

instance dateKey_total (rt : Runtime) :
    IsTotal Record (fun a b => (dateOf rt b).getD 0 ≤ (dateOf rt a).getD 0) :=
  ⟨fun a b => le_total ((dateOf rt b).getD 0) ((dateOf rt a).getD 0)⟩

instance dateKey_trans (rt : Runtime) :
    IsTrans Record (fun a b => (dateOf rt b).getD 0 ≤ (dateOf rt a).getD 0) :=
  ⟨fun _ _ _ hab hbc => le_trans hbc hab⟩

theorem orderedInsert_congr {α : Type} (r r2 : α → α → Prop) [DecidableRel r]
    [DecidableRel r2] (a : α) (l : List α) (h : ∀ b ∈ l, (r a b ↔ r2 a b)) :
    l.orderedInsert r a = l.orderedInsert r2 a := by
  induction l with
  | nil => rfl
  | cons b l ih =>
    have hb := h b (List.mem_cons_self b l)
    have hl := ih (fun c hc => h c (List.mem_cons_of_mem b hc))
    by_cases hr : r a b
    · rw [List.orderedInsert, List.orderedInsert, if_pos hr, if_pos (hb.1 hr)]
    · rw [List.orderedInsert, List.orderedInsert, if_neg hr, if_neg (fun h2 => hr (hb.2 h2)), hl]

theorem insertionSort_congr {α : Type} (r r2 : α → α → Prop) [DecidableRel r]
    [DecidableRel r2] (l : List α) (h : ∀ a ∈ l, ∀ b ∈ l, (r a b ↔ r2 a b)) :
    l.insertionSort r = l.insertionSort r2 := by
  induction l with
  | nil => rfl
  | cons a l ih =>
    have hl := ih (fun x hx y hy => h x (List.mem_cons_of_mem a hx) y (List.mem_cons_of_mem a hy))
    rw [List.insertionSort, List.insertionSort, hl]
    apply orderedInsert_congr
    intro b hb
    exact h a (List.mem_cons_self a l) b
      (List.mem_cons_of_mem a ((List.mem_insertionSort r2).1 hb))

theorem jsSort_perm {α : Type} (cmp : α → α → Option Int) (l : List α) :
    (jsSort cmp l).Perm l :=
  List.perm_insertionSort _ l

theorem dateGe_of_valid (rt : Runtime) (a b : Record)
    (ha : (dateOf rt a).isSome = true) (hb : (dateOf rt b).isSome = true) :
    dateGe (dateOf rt a) (dateOf rt b) = true ↔
      (dateOf rt b).getD 0 ≤ (dateOf rt a).getD 0 := by
  cases ha2 : dateOf rt a with
  | none => rw [ha2] at ha; exact absurd ha (by decide)
  | some x =>
    cases hb2 : dateOf rt b with
    | none => rw [hb2] at hb; exact absurd hb (by decide)
    | some y => simp [dateGe]

theorem cmp_of_valid (rt : Runtime) (a b : Record)
    (ha : (dateOf rt a).isSome = true) (hb : (dateOf rt b).isSome = true) :
    (dateDiff (dateOf rt b) (dateOf rt a)).getD 0 ≤ 0 ↔
      (dateOf rt b).getD 0 ≤ (dateOf rt a).getD 0 := by
  cases ha2 : dateOf rt a with
  | none => rw [ha2] at ha; exact absurd ha (by decide)
  | some x =>
    cases hb2 : dateOf rt b with
    | none => rw [hb2] at hb; exact absurd hb (by decide)
    | some y =>
      simp only [dateDiff, Option.getD_some]
      omega

theorem jsSort_valid_pairwise (rt : Runtime) (l : List Record)
    (hvalid : ∀ r ∈ l, (dateOf rt r).isSome = true) :
    (jsSort (fun a b => dateDiff (dateOf rt b) (dateOf rt a)) l).Pairwise
      (fun a b => dateGe (dateOf rt a) (dateOf rt b) = true) := by
  have hcongr := insertionSort_congr
    (fun a b : Record => (dateDiff (dateOf rt b) (dateOf rt a)).getD 0 ≤ 0)
    (fun a b : Record => (dateOf rt b).getD 0 ≤ (dateOf rt a).getD 0) l
    (fun a ha b hb => cmp_of_valid rt a b (hvalid a ha) (hvalid b hb))
  have hsorted := List.sorted_insertionSort
    (fun a b : Record => (dateOf rt b).getD 0 ≤ (dateOf rt a).getD 0) l
  unfold jsSort
  rw [hcongr]
  refine List.Pairwise.imp_of_mem ?_ hsorted
  intro a b ha hb hab
  exact (dateGe_of_valid rt a b (hvalid a ((List.mem_insertionSort _).1 ha))
    (hvalid b ((List.mem_insertionSort _).1 hb))).2 hab

theorem pairwise_adjacent {α : Type} (R : α → α → Prop) (l : List α)
    (h : l.Pairwise R) (i : Nat) (a b : α)
    (ha : l[i]? = some a) (hb : l[i + 1]? = some b) : R a b := by
  induction l generalizing i with
  | nil => simp at ha
  | cons x xs ih =>
    rw [List.pairwise_cons] at h
    cases i with
    | zero =>
      simp at ha hb
      subst ha
      exact h.1 b (List.getElem?_mem hb)
    | succ j =>
      simp at ha hb
      exact ih h.2 j ha hb

/-- Whatever the store returns, `fetchTransactions` publishes one list as
both `transactions` and `filtered`, and it is a permutation of the loaded
records. -/
theorem fetchTransactions_perm (rt : Runtime) (store : Store) (st : State) :
    (fetchTransactions rt store st).transactions = (fetchTransactions rt store st).filtered ∧
    (fetchTransactions rt store st).filtered.Perm store :=
  ⟨rfl, jsSort_perm _ store⟩

/-- C1 as stated fails for a record whose date text is no date.  The
component stores one itself: with the records dated 2024-01-05, 2024-01-10
and 2024-02-01 loaded, the date input of row id 2 is cleared and the row
saved; the comparator is then `NaN` against that record and the reload
publishes 2024-01-05, `''`, 2024-02-01: the first entry is not dated later
than or equal to the second, nor to the third. -/
theorem fetchTransactions_cleared_date_unsorted :
    (run utc ([txn1, txn2, txn4], mount utc)
      [Op.load, Op.edit txn2, Op.change (FormChange.date ""), Op.save]).2.filtered =
      [txn1, { txn2 with date := "" }, txn4] ∧
    (run utc ([txn1, txn2, txn4], mount utc)
      [Op.load, Op.edit txn2, Op.change (FormChange.date ""), Op.save]).2.transactions =
      [txn1, { txn2 with date := "" }, txn4] ∧
    dateGe (dateOf utc txn1) (dateOf utc { txn2 with date := "" }) = false ∧
    dateGe (dateOf utc txn1) (dateOf utc txn4) = false ∧
    (fetchTransactions utc [txn1, txnNoDate, txn2] initialState).filtered =
      [txn1, txnNoDate, txn2] := by
  decide

/-- C1 (amended): for every list of records returned by the store whose date
texts are all dates, `fetchTransactions` publishes one list as both
`transactions` and `filtered`; it is a permutation of the loaded records and
its dates never increase: any earlier entry is dated later than or equal to
any later one, in particular the entry at position i and the one at i + 1. -/
theorem fetchTransactions_sorted_desc (rt : Runtime) (store : Store) (st : State)
    (hvalid : ∀ r ∈ store, (dateOf rt r).isSome = true) :
    (fetchTransactions rt store st).transactions = (fetchTransactions rt store st).filtered ∧
    (fetchTransactions rt store st).filtered.Perm store ∧
    (fetchTransactions rt store st).filtered.Pairwise
      (fun a b => dateGe (dateOf rt a) (dateOf rt b) = true) ∧
    ∀ (i : Nat) (a b : Record), (fetchTransactions rt store st).filtered[i]? = some a →
      (fetchTransactions rt store st).filtered[i + 1]? = some b →
      dateGe (dateOf rt a) (dateOf rt b) = true := by
  refine ⟨rfl, jsSort_perm _ store, jsSort_valid_pairwise rt store hvalid, ?_⟩
  intro i a b ha hb
  exact pairwise_adjacent (fun a b => dateGe (dateOf rt a) (dateOf rt b) = true) _
    (jsSort_valid_pairwise rt store hvalid) i a b ha hb

/-- C1 (amended) at the records dated 2024-01-05 (id 1) and 2024-01-10
(id 2): they are published in the order id 2, id 1. -/
theorem fetchTransactions_sorted_desc_witness :
    (∀ r ∈ [txn1, txn2], (dateOf utc r).isSome = true) ∧
    (fetchTransactions utc [txn1, txn2] initialState).filtered = [txn2, txn1] ∧
    (fetchTransactions utc [txn1, txn2] initialState).transactions = [txn2, txn1] ∧
    (fetchTransactions utc [txn1, txn2] initialState).filtered.Pairwise
      (fun a b => dateGe (dateOf utc a) (dateOf utc b) = true) :=
  ⟨by decide, by decide, by decide,
   (fetchTransactions_sorted_desc utc [txn1, txn2] initialState (by decide)).2.2.1⟩

/-! ## The date filter -/

/-- C3: when the start date or the end date is unset, `applyFilter` sets
`filtered` to the `transactions` list itself, same records in the same order,
and leaves `transactions` as it was. -/
theorem applyFilter_unset (rt : Runtime) (st : State)
    (h : st.startDate = none ∨ st.endDate = none) :
    (applyFilter rt st).filtered = st.transactions ∧
    (applyFilter rt st).transactions = st.transactions ∧
    (applyFilter rt st).filteredIsTransactions = true := by
  unfold applyFilter setFiltered
  rcases h with h | h
  · rw [h]
    cases st.filteredIsTransactions <;> simp
  · rw [h]
    cases st.startDate <;> cases st.filteredIsTransactions <;> simp

/-- C3 with only the start date set, over the two loaded sample records. -/
theorem applyFilter_unset_witness :
    ({ fetchTransactions utc [txn1, txn2] initialState with
        startDate := some (pick utc 2024 1 6) }.startDate = none ∨
     { fetchTransactions utc [txn1, txn2] initialState with
        startDate := some (pick utc 2024 1 6) }.endDate = none) ∧
    (applyFilter utc { fetchTransactions utc [txn1, txn2] initialState with
        startDate := some (pick utc 2024 1 6) }).filtered = [txn2, txn1] :=
  ⟨Or.inr rfl,
   (applyFilter_unset utc { fetchTransactions utc [txn1, txn2] initialState with
        startDate := some (pick utc 2024 1 6) } (Or.inr rfl)).1.trans (by decide)⟩

/-- With both dates set, `applyFilter` keeps, in order, the records whose
instant lies between local 00:00:00.000 of the start day and local
23:59:59.999 of the end day; a record with no date is dropped. -/
theorem applyFilter_both (rt : Runtime) (st : State) (s e : Int)
    (hs : st.startDate = some s) (he : st.endDate = some e) :
    (applyFilter rt st).filtered =
      st.transactions.filter (fun txn =>
        dateGe (dateOf rt txn) (some (setHours rt.tz s 0 0 0 0)) &&
        dateLe (dateOf rt txn) (some (setHours rt.tz e 23 59 59 999))) := by
  unfold applyFilter setFiltered
  rw [hs, he]
  simp

/-- East of Greenwich (offset from 0 up to, not including, 24 hours) the
instant test of `applyFilter` agrees with the calendar days: a record dated
on day `d` (UTC midnight) is kept exactly when `d` is from the start day to
the end day. -/
theorem kept_iff_day_east (tz s e d : Int) (h0 : 0 ≤ tz) (h1 : tz < msPerDay) :
    (dateGe (some (d * msPerDay)) (some (setHours tz s 0 0 0 0)) &&
      dateLe (some (d * msPerDay)) (some (setHours tz e 23 59 59 999))) = true ↔
      (localDay tz s ≤ d ∧ d ≤ localDay tz e) := by
  simp only [dateGe, dateLe, Bool.and_eq_true, decide_eq_true_eq]
  unfold setHours localDay msPerDay at *
  constructor
  · rintro ⟨ha, hb⟩
    constructor <;> omega
  · rintro ⟨ha, hb⟩
    constructor <;> omega

/-- C2, the sample of the claim: start 2024-01-06, end 2024-01-31 over the
records dated 2024-01-05 (id 1) and 2024-01-10 (id 2) leaves id 2 only, in
UTC, UTC+05:30 and UTC-05:00 alike. -/
theorem applyFilter_sample :
    (applyFilter utc (loadedWithRange utc [txn1, txn2]
      (pick utc 2024 1 6) (pick utc 2024 1 31))).filtered = [txn2] ∧
    (applyFilter utcPlus530 (loadedWithRange utcPlus530 [txn1, txn2]
      (pick utcPlus530 2024 1 6) (pick utcPlus530 2024 1 31))).filtered = [txn2] ∧
    (applyFilter utcMinus5 (loadedWithRange utcMinus5 [txn1, txn2]
      (pick utcMinus5 2024 1 6) (pick utcMinus5 2024 1 31))).filtered = [txn2] := by
  decide

/-- C2 fails west of Greenwich: in UTC-05:00 with start 2024-01-06 and end
2024-01-31 picked, the record dated 2024-01-06 (the start day) is dropped and
the record dated 2024-02-01 (the day after the end day) is kept. -/
theorem applyFilter_west_drops_start_day :
    dateOf utcMinus5 txn3 =
      some (localDay utcMinus5.tz (pick utcMinus5 2024 1 6) * msPerDay) ∧
    dateOf utcMinus5 txn4 =
      some ((localDay utcMinus5.tz (pick utcMinus5 2024 1 31) + 1) * msPerDay) ∧
    (applyFilter utcMinus5 (loadedWithRange utcMinus5 [txn3, txn4]
      (pick utcMinus5 2024 1 6) (pick utcMinus5 2024 1 31))).filtered = [txn4] := by
  decide

/-! ## Page count -/

theorem totalPages_eq_div (st : State) :
    totalPages st = (((st.filtered.length + 9) / 10 : ℕ) : ℤ) := by
  unfold totalPages itemsPerPage
  rw [Int.ceil_eq_iff]
  obtain ⟨k, hk⟩ : ∃ k : ℕ, k = (st.filtered.length + 9) / 10 := ⟨_, rfl⟩
  obtain ⟨n, hn⟩ : ∃ n : ℕ, n = st.filtered.length := ⟨_, rfl⟩
  rw [← hn] at hk
  rw [← hn, ← hk]
  have h1 : 10 * k ≤ n + 9 := by omega
  have h2 : n ≤ 10 * k := by omega
  have h1q : (10 : ℚ) * (k : ℚ) ≤ (n : ℚ) + 9 := by exact_mod_cast h1
  have h2q : (n : ℚ) ≤ 10 * (k : ℚ) := by exact_mod_cast h2
  simp only [Int.cast_natCast, Nat.cast_ofNat]
  constructor
  · rw [lt_div_iff₀ (by norm_num)]
    linarith
  · rw [div_le_iff₀ (by norm_num)]
    linarith

/-- C4 as stated fails for the empty list: after mounting, `filtered` is
empty and `totalPages` is 0, not max(1, ceil(0 / 10)) = 1. -/
theorem totalPages_empty_is_zero :
    (mount utc).filtered.length = 0 ∧ totalPages (mount utc) = 0 ∧
    totalPages (mount utc) ≠ max 1 (Int.ceil (((mount utc).filtered.length : ℚ) / 10)) := by
  have h : totalPages (mount utc) = 0 := by rw [totalPages_eq_div]; decide
  refine ⟨by decide, h, ?_⟩
  rw [h]
  have h0 : (((mount utc).filtered.length : ℕ) : ℚ) = 0 := by
    have : (mount utc).filtered.length = 0 := by decide
    rw [this]; simp
  rw [h0]
  simp

/-- C4 (amended): `totalPages` is ceil(n / 10) with no minimum: it is the
least k with n <= 10 k, it is 0 exactly for the empty list, and it equals
max(1, ceil(n / 10)) exactly when the list is not empty. -/
theorem totalPages_is_ceil (st : State) :
    totalPages st = (((st.filtered.length + 9) / 10 : ℕ) : ℤ) ∧
    (st.filtered.length : ℤ) ≤ 10 * totalPages st ∧
    10 * (totalPages st - 1) < (st.filtered.length : ℤ) + (if st.filtered.length = 0 then 1 else 0) ∧
    (totalPages st = 0 ↔ st.filtered.length = 0) ∧
    (totalPages st = max 1 (Int.ceil ((st.filtered.length : ℚ) / 10)) ↔
      st.filtered.length ≠ 0) := by
  have hceil : Int.ceil ((st.filtered.length : ℚ) / 10) = totalPages st := by
    unfold totalPages itemsPerPage
    norm_num
  rw [hceil, totalPages_eq_div]
  refine ⟨rfl, ?_, ?_, ?_, ?_⟩
  · omega
  · split_ifs <;> omega
  · omega
  · omega

/-! ## Saving an edit -/

theorem changeForm_keeps_id (c : FormChange) (st : State) :
    (changeForm c st).editForm.id = st.editForm.id ∧ (changeForm c st).editId = st.editId := by
  cases c <;> exact ⟨rfl, rfl⟩

theorem foldl_changeForm_keeps_id (changes : List FormChange) (st : State) :
    (changes.foldl (fun s c => changeForm c s) st).editForm.id = st.editForm.id ∧
    (changes.foldl (fun s c => changeForm c s) st).editId = st.editId := by
  induction changes generalizing st with
  | nil => exact ⟨rfl, rfl⟩
  | cons c cs ih =>
    simp only [List.foldl_cons]
    exact ⟨(ih _).1.trans (changeForm_keeps_id c st).1, (ih _).2.trans (changeForm_keeps_id c st).2⟩

theorem put_of_present (r : Record) (store : Store) (h : r.id ∈ store.map Record.id) :
    put r store = store.map (fun x => if x.id = r.id then r else x) := by
  unfold put
  have hany : store.any (fun x => decide (x.id = r.id)) = true := by
    rw [List.any_eq_true]
    obtain ⟨x, hx, hid⟩ := List.mem_map.1 h
    exact ⟨x, hx, by simp [hid]⟩
  rw [if_pos hany]

theorem put_ids_of_present (r : Record) (store : Store) (h : r.id ∈ store.map Record.id) :
    (put r store).map Record.id = store.map Record.id := by
  rw [put_of_present r store h, List.map_map]
  apply List.map_congr_left
  intro x _
  simp only [Function.comp]
  split_ifs with hx
  · exact hx.symm
  · rfl

theorem put_mem_of_present (r : Record) (store : Store) (h : r.id ∈ store.map Record.id) :
    r ∈ put r store := by
  rw [put_of_present r store h]
  obtain ⟨x, hx, hid⟩ := List.mem_map.1 h
  exact List.mem_map.2 ⟨x, hx, by simp [hid]⟩

theorem put_same_id (r : Record) (store : Store) (h : r.id ∈ store.map Record.id)
    (x : Record) (hx : x ∈ put r store) (hid : x.id = r.id) : x = r := by
  rw [put_of_present r store h] at hx
  obtain ⟨y, _, hy⟩ := List.mem_map.1 hx
  by_cases hyid : y.id = r.id
  · rw [if_pos hyid] at hy
    exact hy.symm
  · rw [if_neg hyid] at hy
    subst hy
    exact absurd hid hyid

theorem put_other_id (r : Record) (store : Store) (h : r.id ∈ store.map Record.id)
    (x : Record) (hid : x.id ≠ r.id) : x ∈ put r store ↔ x ∈ store := by
  rw [put_of_present r store h]
  constructor
  · intro hx
    obtain ⟨y, hy, hyx⟩ := List.mem_map.1 hx
    by_cases hyid : y.id = r.id
    · rw [if_pos hyid] at hyx
      subst hyx
      exact absurd rfl hid
    · rw [if_neg hyid] at hyx
      subst hyx
      exact hy
  · intro hx
    exact List.mem_map.2 ⟨x, hx, by rw [if_neg hid]⟩

/-- C5: over a store with unique identifiers, after the edit button on a row
whose identifier is in the store and any sequence of form changes, the form
still carries the identifier of that row, and a successful `handleUpdate`
leaves the store holding the form as the one record with that identifier,
every record with another identifier as it was, and as many records, under
the same identifiers in the same order, as before. -/
theorem handleUpdate_replaces_selected (rt : Runtime) (store : Store) (st : State)
    (row : Record) (changes : List FormChange)
    (hnodup : (store.map Record.id).Nodup) (hrow : row.id ∈ store.map Record.id) :
    (editSession row changes st).editForm.id = row.id ∧
    (editSession row changes st).editId = some row.id ∧
    (editSession row changes st).editForm ∈
      (handleUpdate rt none (store, editSession row changes st)).1 ∧
    (∀ r ∈ (handleUpdate rt none (store, editSession row changes st)).1,
      r.id = row.id → r = (editSession row changes st).editForm) ∧
    (∀ r : Record, r.id ≠ row.id →
      (r ∈ (handleUpdate rt none (store, editSession row changes st)).1 ↔ r ∈ store)) ∧
    (handleUpdate rt none (store, editSession row changes st)).1.length = store.length ∧
    (handleUpdate rt none (store, editSession row changes st)).1.map Record.id =
      store.map Record.id ∧
    ((handleUpdate rt none (store, editSession row changes st)).1.map Record.id).Nodup := by
  have hid : (editSession row changes st).editForm.id = row.id :=
    (foldl_changeForm_keeps_id changes (startEdit row st)).1
  have hed : (editSession row changes st).editId = some row.id :=
    (foldl_changeForm_keeps_id changes (startEdit row st)).2
  have hstore : (handleUpdate rt none (store, editSession row changes st)).1 =
      put (editSession row changes st).editForm store := rfl
  have hpres : (editSession row changes st).editForm.id ∈ store.map Record.id := by
    rw [hid]; exact hrow
  have hids := put_ids_of_present _ store hpres
  rw [hstore]
  refine ⟨hid, hed, put_mem_of_present _ store hpres, ?_, ?_, ?_, hids, ?_⟩
  · intro r hr hrid
    exact put_same_id _ store hpres r hr (hrid.trans hid.symm)
  · intro r hrid
    exact put_other_id _ store hpres r (by rw [hid]; exact hrid)
  · have := congrArg List.length hids
    simpa using this
  · rw [hids]; exact hnodup

/-- C5 on the two sample records: row id 1 is edited (name, then amount
120.5, then the date cleared) and saved; the store then holds the edited
record under id 1 and id 2 untouched. -/
theorem handleUpdate_replaces_selected_witness :
    ([txn1, txn2].map Record.id).Nodup ∧ txn1.id ∈ [txn1, txn2].map Record.id ∧
    (handleUpdate utc none ([txn1, txn2],
      editSession txn1 [FormChange.name "Rent Jan",
          FormChange.amount (JsNumber.finite false 1205 (-1)), FormChange.date ""]
        (fetchTransactions utc [txn1, txn2] (mount utc)))).1 =
      [{ txn1 with name := "Rent Jan", amount := JsNumber.finite false 1205 (-1), date := "" },
        txn2] ∧
    (handleUpdate utc none ([txn1, txn2],
      editSession txn1 [FormChange.name "Rent Jan",
          FormChange.amount (JsNumber.finite false 1205 (-1)), FormChange.date ""]
        (fetchTransactions utc [txn1, txn2] (mount utc)))).1.length = [txn1, txn2].length :=
  ⟨by decide, by decide, by decide,
   (handleUpdate_replaces_selected utc [txn1, txn2]
      (fetchTransactions utc [txn1, txn2] (mount utc)) txn1
      [FormChange.name "Rent Jan", FormChange.amount (JsNumber.finite false 1205 (-1)),
        FormChange.date ""] (by decide) (by decide)).2.2.2.2.2.1⟩

/-! ## A failed save -/

/-- C8 as stated fails when the step that throws is the reload: the write went
through, `setEditId(null)` has run, the error notification is shown and the
component is no longer editing. -/
theorem handleUpdate_reload_failure_leaves_editing :
    (startEdit txn1 (fetchTransactions utc [txn1, txn2] (mount utc))).editId = some txn1.id ∧
    Toast.error "Failed to update transaction" ∈
      (handleUpdate utc (some FailPoint.fetchGetAll)
        ([txn1, txn2], startEdit txn1 (fetchTransactions utc [txn1, txn2] (mount utc)))).2.toasts ∧
    (handleUpdate utc (some FailPoint.fetchGetAll)
        ([txn1, txn2], startEdit txn1 (fetchTransactions utc [txn1, txn2] (mount utc)))).2.editId =
      none := by
  decide

/-- C8 (amended): whichever step of `handleUpdate` throws, the error
notification is added, the form contents are kept and `transactions` and
`filtered` are not reloaded; when the step belongs to the store write
(`initDB`, `transaction`, `put`, `tx.done`) the component is still editing
the same row and the store is as it was. -/
theorem handleUpdate_failure (rt : Runtime) (f : FailPoint) (store : Store) (st : State)
    (id : Key) (hedit : st.editId = some id) :
    (handleUpdate rt (some f) (store, st)).2.toasts =
      st.toasts ++ [Toast.error "Failed to update transaction"] ∧
    (handleUpdate rt (some f) (store, st)).2.editForm = st.editForm ∧
    (handleUpdate rt (some f) (store, st)).2.transactions = st.transactions ∧
    (handleUpdate rt (some f) (store, st)).2.filtered = st.filtered ∧
    (handleUpdate rt (some f) (store, st)).2.currentPage = st.currentPage ∧
    (f.isWrite = true →
      (handleUpdate rt (some f) (store, st)).2.editId = some id ∧
      (handleUpdate rt (some f) (store, st)).1 = store) := by
  cases f <;> simp [handleUpdate, FailPoint.isWrite, hedit]

/-- C8 (amended) at a failing `put` while row id 1 is being edited. -/
theorem handleUpdate_failure_witness :
    (startEdit txn1 (fetchTransactions utc [txn1, txn2] (mount utc))).editId = some txn1.id ∧
    (handleUpdate utc (some FailPoint.put)
      ([txn1, txn2], startEdit txn1 (fetchTransactions utc [txn1, txn2] (mount utc)))).2.editId =
      some txn1.id ∧
    (handleUpdate utc (some FailPoint.put)
      ([txn1, txn2], startEdit txn1 (fetchTransactions utc [txn1, txn2] (mount utc)))).2.filtered =
      [txn2, txn1] :=
  ⟨rfl,
   ((handleUpdate_failure utc FailPoint.put [txn1, txn2]
      (startEdit txn1 (fetchTransactions utc [txn1, txn2] (mount utc))) txn1.id rfl).2.2.2.2.2 rfl).1,
   by decide⟩

/-! ## CSV export -/

theorem join_data (sep : String) (l : List String) :
    (join sep l).data = List.intercalate sep.data (l.map String.data) := by
  induction l with
  | nil => simp [join, List.intercalate]
  | cons x xs ih =>
    cases xs with
    | nil => simp [join, List.intercalate]
    | cons y ys =>
      simp only [join, String.data_append, ih]
      simp [List.intercalate, List.intersperse]

theorem ite_ne_of {c : Prop} [Decidable c] {a b x : Char} (ha : a ≠ x) (hb : b ≠ x) :
    (if c then a else b) ≠ x := by
  split <;> assumption

theorem digitChar_ne_LF (k : Nat) : Nat.digitChar k ≠ LF := by
  unfold Nat.digitChar
  iterate 16 (refine ite_ne_of (by decide) ?_)
  decide

theorem toDigitsCore_no_LF (fuel : Nat) : ∀ (n : Nat) (ds : List Char),
    LF ∉ ds → LF ∉ Nat.toDigitsCore 10 fuel n ds := by
  induction fuel with
  | zero => intro n ds h; simpa [Nat.toDigitsCore] using h
  | succ f ih =>
    intro n ds h
    have hds : LF ∉ Nat.digitChar (n % 10) :: ds := by
      intro hmem
      rcases List.mem_cons.1 hmem with h1 | h1
      · exact digitChar_ne_LF _ h1.symm
      · exact h h1
    simp only [Nat.toDigitsCore]
    split_ifs
    · exact hds
    · exact ih _ _ hds

theorem digitsOf_no_LF (n : Nat) : LF ∉ digitsOf n := by
  show LF ∉ (Nat.repr n).data
  unfold Nat.repr Nat.toDigits List.asString
  exact toDigitsCore_no_LF _ _ _ (by simp)

theorem stripZeros_no_LF (ds : List Char) (h : LF ∉ ds) : LF ∉ stripZeros ds := by
  unfold stripZeros
  intro hmem
  rw [List.mem_reverse] at hmem
  have h2 := (List.dropWhile_sublist (fun c => c == '0')).subset hmem
  exact h (List.mem_reverse.1 h2)

theorem sign_no_LF (negative : Bool) (body : List Char) (h : LF ∉ body) :
    LF ∉ (if negative then ['-'] else []) ++ body := by
  cases negative
  · simpa using h
  · intro hmem
    rcases List.mem_append.1 hmem with h1 | h1
    · revert h1; decide
    · exact h h1

theorem numberToString_no_LF (x : JsNumber) : LF ∉ (numberToString x).data := by
  cases x with
  | nan => decide
  | infinity negative => cases negative <;> decide
  | finite negative m e =>
    simp only [numberToString]
    by_cases hm : m = 0
    · rw [if_pos hm]; decide
    · rw [if_neg hm]
      have hs : LF ∉ stripZeros (digitsOf m) := stripZeros_no_LF _ (digitsOf_no_LF m)
      have htake : ∀ k : Nat, LF ∉ (stripZeros (digitsOf m)).take k :=
        fun k hk => hs (List.mem_of_mem_take hk)
      have hdrop : ∀ k : Nat, LF ∉ (stripZeros (digitsOf m)).drop k :=
        fun k hk => hs (List.mem_of_mem_drop hk)
      have htail : LF ∉ (stripZeros (digitsOf m)).tail :=
        fun hk => hs (List.mem_of_mem_tail hk)
      have hrep : ∀ k : Nat, LF ∉ List.replicate k '0' := by
        intro k hk
        have := List.eq_of_mem_replicate hk
        revert this; decide
      have hdig : ∀ k : Nat, LF ∉ digitsOf k := digitsOf_no_LF
      have hdot : LF ≠ '.' := by decide
      have hzero : LF ≠ '0' := by decide
      have he : LF ≠ 'e' := by decide
      have hminus : LF ≠ '-' := by decide
      have hplus : LF ≠ '+' := by decide
      apply sign_no_LF
      split_ifs <;>
        simp [hs, htake, hdrop, htail, hrep, hdig, hdot, hzero, he, hminus, hplus]

theorem nat_toString_no_LF (n : Nat) : LF ∉ (toString n).data := digitsOf_no_LF n

theorem int_toString_no_LF (i : Int) : LF ∉ (toString i).data := by
  cases i with
  | ofNat m => exact nat_toString_no_LF m
  | negSucc m =>
    show LF ∉ ("-" ++ toString (Nat.succ m)).data
    rw [String.data_append]
    intro hmem
    rcases List.mem_append.1 hmem with h1 | h1
    · revert h1; decide
    · exact nat_toString_no_LF _ h1

theorem enINDate_no_LF (tz t : Int) : LF ∉ (enINDate tz t).data := by
  unfold enINDate
  have hslash : LF ∉ "/".data := by decide
  simp only [String.data_append, List.mem_append, not_or]
  exact ⟨⟨⟨⟨int_toString_no_LF _, hslash⟩, int_toString_no_LF _⟩, hslash⟩, int_toString_no_LF _⟩

theorem toLocaleDateString_no_LF (rt : Runtime) (hfmt : ∀ t : Int, LF ∉ (rt.formatDate t).data)
    (text : String) : LF ∉ (toLocaleDateString rt text).data := by
  unfold toLocaleDateString
  cases h : rt.dateParse text with
  | none =>
    show LF ∉ "Invalid Date".data
    decide
  | some t => exact hfmt t

theorem csvRow_text (rt : Runtime) (r : Record) :
    join "," (csvRow rt r) =
      r.name ++ "," ++ r.type ++ "," ++ r.category ++ "," ++
        toLocaleDateString rt r.date ++ "," ++ numberToString r.amount := by
  simp only [csvRow, join, String.append_assoc]

theorem csvRow_no_LF (rt : Runtime) (hfmt : ∀ t : Int, LF ∉ (rt.formatDate t).data)
    (r : Record) (h : LF ∉ r.name.data ∧ LF ∉ r.type.data ∧ LF ∉ r.category.data) :
    LF ∉ (join "," (csvRow rt r)).data := by
  have hcomma : LF ∉ ",".data := by decide
  rw [csvRow_text]
  simp only [String.data_append, List.mem_append, not_or]
  exact ⟨⟨⟨⟨⟨⟨⟨⟨h.1, hcomma⟩, h.2.1⟩, hcomma⟩, h.2.2⟩, hcomma⟩,
    toLocaleDateString_no_LF rt hfmt _⟩, hcomma⟩, numberToString_no_LF _⟩

theorem lines_join (ls : List String) (hne : ls ≠ []) (h : ∀ l ∈ ls, LF ∉ l.data) :
    lines (join "\n" ls) = ls := by
  unfold lines
  rw [join_data]
  have hsep : "\n".data = [LF] := by decide
  rw [hsep, List.splitOn_intercalate]
  · rw [List.map_map]
    conv_rhs => rw [← List.map_id ls]
    apply List.map_congr_left
    intro x _
    rfl
  · intro l hl
    obtain ⟨x, hx, rfl⟩ := List.mem_map.1 hl
    exact h x hx
  · simpa using hne

/-- The export has no fallback to all transactions: with the two sample
records loaded and a range that holds none of them (start 2024-01-31, end
2024-01-06), `filtered` is empty, nothing is exported and the notice
"No transactions to export" is shown. -/
theorem handleExportCSV_empty_no_fallback :
    (applyFilter utc (loadedWithRange utc [txn1, txn2]
      (pick utc 2024 1 31) (pick utc 2024 1 6))).transactions = [txn2, txn1] ∧
    (applyFilter utc (loadedWithRange utc [txn1, txn2]
      (pick utc 2024 1 31) (pick utc 2024 1 6))).filtered = [] ∧
    (handleExportCSV utc (applyFilter utc (loadedWithRange utc [txn1, txn2]
      (pick utc 2024 1 31) (pick utc 2024 1 6)))).1 = none ∧
    (handleExportCSV utc (applyFilter utc (loadedWithRange utc [txn1, txn2]
      (pick utc 2024 1 31) (pick utc 2024 1 6)))).2.toasts =
      [Toast.info "No transactions to export"] := by
  decide

/-- C6 as stated fails for a name holding a line feed: one exported record
gives three lines, not two. -/
theorem handleExportCSV_line_feed_in_name :
    (fetchTransactions utc [txnTwoLines] (mount utc)).filtered.length = 1 ∧
    (handleExportCSV utc (fetchTransactions utc [txnTwoLines] (mount utc))).1.map
      (fun csv => (lines csv).length) = some 3 := by
  decide

/-- C6 (amended): for a non-empty filtered list of N records whose name,
type and category hold no line feed, in a runtime whose date text holds
none, the text built by `handleExportCSV` has exactly N + 1 lines: the header
`Name,Type,Category,Date,Amount`, then for each record in order its name,
type, category, en-IN date text and amount (as Number-to-string prints it)
joined by commas. -/
theorem handleExportCSV_lines (rt : Runtime) (st : State)
    (hfmt : ∀ t : Int, LF ∉ (rt.formatDate t).data) (hne : st.filtered ≠ [])
    (hclean : ∀ r ∈ st.filtered,
      LF ∉ r.name.data ∧ LF ∉ r.type.data ∧ LF ∉ r.category.data) :
    ∃ csv : String, (handleExportCSV rt st).1 = some csv ∧
      lines csv = "Name,Type,Category,Date,Amount" ::
        st.filtered.map (fun r =>
          r.name ++ "," ++ r.type ++ "," ++ r.category ++ "," ++
            toLocaleDateString rt r.date ++ "," ++ numberToString r.amount) ∧
      (lines csv).length = st.filtered.length + 1 ∧
      (handleExportCSV rt st).2 = st := by
  have hlen : ¬ st.filtered.length = 0 := by
    intro h; exact hne (List.length_eq_zero.1 h)
  have hrows : ∀ l ∈ (csvHeader :: st.filtered.map (csvRow rt)).map (join ","),
      LF ∉ l.data := by
    intro l hl
    rw [List.map_cons, List.mem_cons] at hl
    rcases hl with h | h
    · subst h; decide
    · rw [List.map_map] at h
      obtain ⟨r, hr, rfl⟩ := List.mem_map.1 h
      exact csvRow_no_LF rt hfmt r (hclean r hr)
  have hlines := lines_join ((csvHeader :: st.filtered.map (csvRow rt)).map (join ","))
    (by simp) hrows
  have hhead : join "," csvHeader = "Name,Type,Category,Date,Amount" := by decide
  have hmap : (st.filtered.map (csvRow rt)).map (join ",") =
      st.filtered.map (fun r =>
          r.name ++ "," ++ r.type ++ "," ++ r.category ++ "," ++
            toLocaleDateString rt r.date ++ "," ++ numberToString r.amount) := by
    rw [List.map_map]
    apply List.map_congr_left
    intro r _
    exact csvRow_text rt r
  rw [List.map_cons, hhead, hmap] at hlines
  have hexp : handleExportCSV rt st =
      (some (join "\n" ((csvHeader :: st.filtered.map (csvRow rt)).map (join ","))), st) := by
    unfold handleExportCSV
    simp only [hlen, if_false]
  rw [List.map_cons, hhead, hmap] at hexp
  rw [hexp]
  refine ⟨_, rfl, hlines, ?_, rfl⟩
  rw [hlines, List.length_cons, List.length_map]

/-- C6 (amended) in UTC+05:30 on three loaded records: amounts 12.5 and 100,
and one with amount 1e21 and a cleared date. -/
theorem handleExportCSV_lines_witness :
    (∀ t : Int, LF ∉ (utcPlus530.formatDate t).data) ∧
    (fetchTransactions utcPlus530 [txn1, txn4, txnNoDate] (mount utcPlus530)).filtered ≠ [] ∧
    (∀ r ∈ (fetchTransactions utcPlus530 [txn1, txn4, txnNoDate] (mount utcPlus530)).filtered,
      LF ∉ r.name.data ∧ LF ∉ r.type.data ∧ LF ∉ r.category.data) ∧
    (handleExportCSV utcPlus530
        (fetchTransactions utcPlus530 [txn1, txn4, txnNoDate] (mount utcPlus530))).1.map lines =
      some ["Name,Type,Category,Date,Amount", "Pay,income,Salary,1/2/2024,12.5",
        "Rent,expense,Home,5/1/2024,100", "Loan,income,Other,Invalid Date,1e+21"] ∧
    ∃ csv : String,
      (handleExportCSV utcPlus530
        (fetchTransactions utcPlus530 [txn1, txn4, txnNoDate] (mount utcPlus530))).1 = some csv ∧
      (lines csv).length =
        (fetchTransactions utcPlus530 [txn1, txn4, txnNoDate]
          (mount utcPlus530)).filtered.length + 1 :=
  ⟨enINDate_no_LF 19800000, by decide, by decide, by decide,
   (handleExportCSV_lines utcPlus530
      (fetchTransactions utcPlus530 [txn1, txn4, txnNoDate] (mount utcPlus530))
      (enINDate_no_LF 19800000) (by decide) (by decide)).imp (fun _ h => ⟨h.1, h.2.2.1⟩)⟩

/-! ## Page reset on a filter change -/

theorem setStartDate_currentPage (rt : Runtime) (st : State) (d : Option Int) :
    (setStartDate rt d st).currentPage =
      if (d = none ∧ st.startDate = none) ∨
         ((d = none ∨ st.endDate = none) ∧ st.filteredIsTransactions = true)
      then st.currentPage else 1 := by
  unfold setStartDate applyFilter setFiltered
  cases d <;> cases hs : st.startDate <;> cases he : st.endDate <;>
    cases ha : st.filteredIsTransactions <;> simp [hs, he, ha]

theorem setEndDate_currentPage (rt : Runtime) (st : State) (d : Option Int) :
    (setEndDate rt d st).currentPage =
      if (d = none ∧ st.endDate = none) ∨
         ((st.startDate = none ∨ d = none) ∧ st.filteredIsTransactions = true)
      then st.currentPage else 1 := by
  unfold setEndDate applyFilter setFiltered
  cases d <;> cases hs : st.startDate <;> cases he : st.endDate <;>
    cases ha : st.filteredIsTransactions <;> simp [hs, he, ha]

/-- C7 as stated fails: with eleven records loaded and page 2 shown, setting
the start date alone (end date unset) re-runs `applyFilter`, which stores the
same `transactions` array again; the page effect does not fire and the
current page stays 2. -/
theorem setStartDate_alone_keeps_page :
    nextEnabled (run utc (elevenTxns, mount utc) [Op.load]).2 = true ∧
    (run utc (elevenTxns, mount utc) [Op.load, Op.next]).2.currentPage = 2 ∧
    (run utc (elevenTxns, mount utc)
      [Op.load, Op.next, Op.setStart (some (pick utc 2024 1 6))]).2.startDate =
        some (pick utc 2024 1 6) ∧
    (run utc (elevenTxns, mount utc)
      [Op.load, Op.next, Op.setStart (some (pick utc 2024 1 6))]).2.currentPage = 2 := by
  refine ⟨?_, by decide, by decide, by decide⟩
  unfold nextEnabled
  rw [totalPages_eq_div]
  decide

/-- C7 (amended): a change of the start or end date leaves the current page
at 1 whenever both dates are set after it, and whenever `filtered` was not
the `transactions` array itself before it; a change that leaves a date unset
while `filtered` already is the `transactions` array, like `null` chosen over
`null`, leaves the page as it was. -/
theorem date_change_currentPage (rt : Runtime) (st : State) (d : Option Int) :
    ((setStartDate rt d st).currentPage =
      if (d = none ∧ st.startDate = none) ∨
         ((d = none ∨ st.endDate = none) ∧ st.filteredIsTransactions = true)
      then st.currentPage else 1) ∧
    ((setEndDate rt d st).currentPage =
      if (d = none ∧ st.endDate = none) ∨
         ((st.startDate = none ∨ d = none) ∧ st.filteredIsTransactions = true)
      then st.currentPage else 1) ∧
    (∀ s e : Int, st.endDate = some e → (setStartDate rt (some s) st).currentPage = 1) ∧
    (∀ s e : Int, st.startDate = some s → (setEndDate rt (some e) st).currentPage = 1) := by
  refine ⟨setStartDate_currentPage rt st d, setEndDate_currentPage rt st d, ?_, ?_⟩
  · intro s e he
    rw [setStartDate_currentPage]
    simp [he]
  · intro s e hs
    rw [setEndDate_currentPage]
    simp [hs]

/-! ## Reload with an active range -/

/-- C9 fails after a reload: in UTC, with start 2024-01-06 and end 2024-01-31
set, `filtered` holds id 2 only; after record id 2 is edited and saved, the
reload publishes the whole sorted list as `filtered`, so the record dated
2024-01-05, before the start day, is displayed while both dates are still
set.  The same happens after a confirmed delete. -/
theorem reload_ignores_active_range :
    (run utc ([txn1, txn2], mount utc)
      [Op.load, Op.setStart (some (pick utc 2024 1 6)),
        Op.setEnd (some (pick utc 2024 1 31))]).2.filtered = [txn2] ∧
    (run utc ([txn1, txn2], mount utc)
      [Op.load, Op.setStart (some (pick utc 2024 1 6)), Op.setEnd (some (pick utc 2024 1 31)),
        Op.edit txn2, Op.change (FormChange.amount (JsNumber.ofNat 60)), Op.save]).2.filtered =
      [{ txn2 with amount := JsNumber.ofNat 60 }, txn1] ∧
    (run utc ([txn1, txn2], mount utc)
      [Op.load, Op.setStart (some (pick utc 2024 1 6)), Op.setEnd (some (pick utc 2024 1 31)),
        Op.edit txn2, Op.change (FormChange.amount (JsNumber.ofNat 60)), Op.save]).2.startDate =
      some (pick utc 2024 1 6) ∧
    (run utc ([txn1, txn2], mount utc)
      [Op.load, Op.setStart (some (pick utc 2024 1 6)), Op.setEnd (some (pick utc 2024 1 31)),
        Op.edit txn2, Op.change (FormChange.amount (JsNumber.ofNat 60)), Op.save]).2.endDate =
      some (pick utc 2024 1 31) ∧
    dateOf utc txn1 = some (daysFromCivil 2024 1 5 * msPerDay) ∧
    daysFromCivil 2024 1 5 * msPerDay < setHours utc.tz (pick utc 2024 1 6) 0 0 0 0 ∧
    dateGe (dateOf utc txn1) (some (setHours utc.tz (pick utc 2024 1 6) 0 0 0 0)) = false ∧
    (run utc ([txn1, txn2], mount utc)
      [Op.load, Op.setStart (some (pick utc 2024 1 6)), Op.setEnd (some (pick utc 2024 1 31)),
        Op.delete (Key.num 2)]).2.filtered = [txn1] := by
  decide

/-! ## The pager -/

theorem pageInv_of_reset (st : State)
    (h1 : st.filteredIsTransactions = true → st.filtered = st.transactions)
    (h2 : (st.startDate = none ∨ st.endDate = none) → st.filteredIsTransactions = true)
    (h3 : st.currentPage = 1) : PageInv st := by
  refine ⟨h1, h2, ?_, ?_⟩
  · omega
  · rw [h3]; exact le_max_left _ _

theorem pageInv_fetch (rt : Runtime) (store : Store) (st : State) :
    PageInv (fetchTransactions rt store st) :=
  pageInv_of_reset _ (fun _ => rfl) (fun _ => rfl) rfl

theorem pageInv_applyFilter (rt : Runtime) (st : State)
    (h1 : st.filteredIsTransactions = true → st.filtered = st.transactions)
    (h3 : 1 ≤ st.currentPage) (h4 : st.currentPage ≤ max 1 (totalPages st)) :
    PageInv (applyFilter rt st) := by
  unfold applyFilter
  cases hs : st.startDate with
  | none =>
    cases ha : st.filteredIsTransactions with
    | false =>
      exact pageInv_of_reset _ (by simp [setFiltered, ha]) (by simp [setFiltered, ha])
        (by simp [setFiltered, ha])
    | true =>
      have hf := h1 ha
      refine ⟨by simp [setFiltered, ha], by simp [setFiltered, ha], by simpa [setFiltered, ha] using h3, ?_⟩
      have : totalPages (setFiltered st.transactions true st) = totalPages st := by
        simp [setFiltered, ha, totalPages, hf]
      rw [this]
      simpa [setFiltered, ha] using h4
  | some s =>
    cases he : st.endDate with
    | none =>
      cases ha : st.filteredIsTransactions with
      | false =>
        exact pageInv_of_reset _ (by simp [setFiltered, ha]) (by simp [setFiltered, ha])
          (by simp [setFiltered, ha])
      | true =>
        have hf := h1 ha
        refine ⟨by simp [setFiltered, ha], by simp [setFiltered, ha],
          by simpa [setFiltered, ha] using h3, ?_⟩
        have : totalPages (setFiltered st.transactions true st) = totalPages st := by
          simp [setFiltered, ha, totalPages, hf]
        rw [this]
        simpa [setFiltered, ha] using h4
    | some e =>
      exact pageInv_of_reset _ (by simp [setFiltered]) (by simp [setFiltered, hs, he])
        (by simp [setFiltered])

theorem pageInv_mount (rt : Runtime) : PageInv (mount rt) := by
  unfold mount
  apply pageInv_applyFilter
  · intro h; exact absurd h (by decide)
  · decide
  · exact le_max_left _ _

theorem pageInv_step (rt : Runtime) (w : Store × State) (op : Op) (h : PageInv w.2)
    (hop : op.allowed w.2 = true) : PageInv (step rt w op).2 := by
  obtain ⟨h1, h2, h3, h4⟩ := h
  cases op with
  | load => exact pageInv_fetch _ _ _
  | setStart d =>
    show PageInv (setStartDate rt d w.2)
    unfold setStartDate
    split_ifs
    · exact ⟨h1, h2, h3, h4⟩
    · exact pageInv_applyFilter rt _ h1 h3 h4
  | setEnd d =>
    show PageInv (setEndDate rt d w.2)
    unfold setEndDate
    split_ifs
    · exact ⟨h1, h2, h3, h4⟩
    · exact pageInv_applyFilter rt _ h1 h3 h4
  | prev =>
    have hp : w.2.currentPage ≠ 1 := by
      simp [Op.allowed, prevEnabled] at hop
      exact hop.2
    refine ⟨h1, h2, ?_, ?_⟩
    · show 1 ≤ w.2.currentPage - 1
      omega
    · show w.2.currentPage - 1 ≤ max 1 (totalPages w.2)
      omega
  | next =>
    have hp : w.2.filtered ≠ [] ∧ w.2.currentPage ≠ totalPages w.2 := by
      simpa [Op.allowed, nextEnabled, pagerShown] using hop
    have ht := totalPages_eq_div w.2
    have hlen : 0 < w.2.filtered.length := List.length_pos.2 hp.1
    refine ⟨h1, h2, ?_, ?_⟩
    · show 1 ≤ w.2.currentPage + 1
      omega
    · show w.2.currentPage + 1 ≤ max 1 (totalPages w.2)
      have hne := hp.2
      have h4b : w.2.currentPage ≤ max 1 (totalPages w.2) := h4
      have hpos : 1 ≤ totalPages w.2 := by rw [ht]; omega
      rw [max_eq_right hpos] at h4b ⊢
      omega
  | edit txn => exact ⟨h1, h2, h3, h4⟩
  | change c => cases c <;> exact ⟨h1, h2, h3, h4⟩
  | cancel => exact ⟨h1, h2, h3, h4⟩
  | save => exact pageInv_of_reset _ (fun _ => rfl) (fun _ => rfl) rfl
  | delete id => exact pageInv_of_reset _ (fun _ => rfl) (fun _ => rfl) rfl

theorem pageInv_reachable (rt : Runtime) (store0 : Store) (w : Store × State)
    (h : Reachable rt store0 w) : PageInv w.2 := by
  induction h with
  | start => exact pageInv_mount rt
  | next w op _ hop ih => exact pageInv_step rt w op ih hop

theorem ceil_eq_totalPages (st : State) :
    Int.ceil ((st.filtered.length : ℚ) / 10) = totalPages st := by
  unfold totalPages itemsPerPage
  norm_num

theorem paginated_length_le (st : State) (h1 : 1 ≤ st.currentPage) :
    (paginated st).length ≤ 10 := by
  unfold paginated slice itemsPerPage
  have hlo : ¬ (st.currentPage - 1) * ((10 : ℕ) : ℤ) < 0 := by push_cast; omega
  have hhi : ¬ st.currentPage * ((10 : ℕ) : ℤ) < 0 := by push_cast; omega
  simp only [hlo, hhi, if_false, List.length_take, List.length_drop]
  push_cast
  omega

theorem paginated_ne_nil (st : State) (h1 : 1 ≤ st.currentPage)
    (h2 : st.currentPage ≤ totalPages st) (hne : st.filtered ≠ []) :
    paginated st ≠ [] := by
  have hlen : 0 < st.filtered.length := List.length_pos.2 hne
  have ht := totalPages_eq_div st
  intro hnil
  have h0 : (paginated st).length = 0 := by rw [hnil]; rfl
  revert h0
  unfold paginated slice itemsPerPage
  have hlo : ¬ (st.currentPage - 1) * ((10 : ℕ) : ℤ) < 0 := by push_cast; omega
  have hhi : ¬ st.currentPage * ((10 : ℕ) : ℤ) < 0 := by push_cast; omega
  simp only [hlo, hhi, if_false, List.length_take, List.length_drop]
  push_cast
  omega

/-- C10: in every state reached from the mounted component by any sequence
of operations, the pager buttons pressed only while enabled, the current
page p satisfies 1 <= p <= max(1, ceil(n / 10)) for the filtered length n;
"previous" cannot be pressed exactly when p = 1 and "next" exactly when p is
the last page; a press moves p by one and stays within the bounds; the
displayed page has at most 10 records and is not empty when the filtered
list is not empty. -/
theorem pager_within_bounds (rt : Runtime) (store0 : Store) (w : Store × State)
    (h : Reachable rt store0 w) :
    1 ≤ w.2.currentPage ∧
    w.2.currentPage ≤ max 1 (Int.ceil ((w.2.filtered.length : ℚ) / 10)) ∧
    (prevEnabled w.2 = false ↔ w.2.currentPage = 1) ∧
    (nextEnabled w.2 = false ↔
      w.2.currentPage = max 1 (Int.ceil ((w.2.filtered.length : ℚ) / 10))) ∧
    (prevEnabled w.2 = true →
      (prevPage w.2).currentPage = w.2.currentPage - 1 ∧ 1 ≤ (prevPage w.2).currentPage) ∧
    (nextEnabled w.2 = true →
      (nextPage w.2).currentPage = w.2.currentPage + 1 ∧
      (nextPage w.2).currentPage ≤ max 1 (Int.ceil ((w.2.filtered.length : ℚ) / 10))) ∧
    (paginated w.2).length ≤ 10 ∧
    (w.2.filtered ≠ [] → paginated w.2 ≠ []) := by
  obtain ⟨_, _, h3, h4⟩ := pageInv_reachable rt store0 w h
  have ht := totalPages_eq_div w.2
  rw [ceil_eq_totalPages]
  have hempty : w.2.filtered = [] → w.2.currentPage = 1 := by
    intro he
    have : w.2.filtered.length = 0 := by rw [he]; rfl
    rw [this] at ht
    omega
  have hpos : w.2.filtered ≠ [] → 1 ≤ totalPages w.2 := by
    intro hne
    have hlen : 0 < w.2.filtered.length := List.length_pos.2 hne
    omega
  refine ⟨h3, h4, ?_, ?_, ?_, ?_, paginated_length_le w.2 h3, ?_⟩
  · by_cases hne : w.2.filtered = []
    · simp [prevEnabled, pagerShown, hne, hempty hne]
    · simp [prevEnabled, pagerShown, hne]
  · by_cases hne : w.2.filtered = []
    · have hp := hempty hne
      have : w.2.filtered.length = 0 := by rw [hne]; rfl
      rw [this] at ht
      have hmax : max 1 (totalPages w.2) = 1 := by omega
      simp [nextEnabled, pagerShown, hne, hp, hmax]
    · have hmax : max 1 (totalPages w.2) = totalPages w.2 := max_eq_right (hpos hne)
      simp [nextEnabled, pagerShown, hne, hmax]
  · intro hp
    have hp1 : w.2.currentPage ≠ 1 := by
      simp [prevEnabled] at hp
      exact hp.2
    refine ⟨rfl, ?_⟩
    show 1 ≤ w.2.currentPage - 1
    omega
  · intro hn
    have hn1 : w.2.filtered ≠ [] ∧ w.2.currentPage ≠ totalPages w.2 := by
      simpa [nextEnabled, pagerShown] using hn
    have hmax : max 1 (totalPages w.2) = totalPages w.2 := max_eq_right (hpos hn1.1)
    refine ⟨rfl, ?_⟩
    show w.2.currentPage + 1 ≤ max 1 (totalPages w.2)
    rw [hmax] at h4 ⊢
    have := hn1.2
    omega
  · intro hne
    have hmax : max 1 (totalPages w.2) = totalPages w.2 := max_eq_right (hpos hne)
    rw [hmax] at h4
    exact paginated_ne_nil w.2 h3 h4 hne

/-- C10 on eleven loaded records after one press of "next": page 2 of 2,
showing the one remaining record. -/
theorem pager_within_bounds_witness :
    Reachable utc elevenTxns (step utc (step utc (elevenTxns, mount utc) Op.load) Op.next) ∧
    (step utc (step utc (elevenTxns, mount utc) Op.load) Op.next).2.currentPage = 2 ∧
    (paginated (step utc (step utc (elevenTxns, mount utc) Op.load) Op.next).2).length = 1 ∧
    (step utc (step utc (elevenTxns, mount utc) Op.load) Op.next).2.currentPage ≤
      max 1 (Int.ceil
        (((step utc (step utc (elevenTxns, mount utc) Op.load) Op.next).2.filtered.length : ℚ)
          / 10)) := by
  have hnext : Op.next.allowed (step utc (elevenTxns, mount utc) Op.load).2 = true := by
    show nextEnabled (step utc (elevenTxns, mount utc) Op.load).2 = true
    unfold nextEnabled
    rw [totalPages_eq_div]
    decide
  have hr : Reachable utc elevenTxns
      (step utc (step utc (elevenTxns, mount utc) Op.load) Op.next) :=
    Reachable.next _ Op.next (Reachable.next _ Op.load Reachable.start rfl) hnext
  exact ⟨hr, by decide, by decide, (pager_within_bounds utc elevenTxns _ hr).2.1⟩

end Finsync
